import Mathlib

/-!
Verification of the coaching-tool public-engagement RAG service:
the agent tool-calling loop (`lib/agent-runner.mjs`), the search tool
adapter (`lib/agent-tools.mjs`), the structure-aware chunking engine
(`lib/chunking.mjs`), and the SSE endpoints (`server.mjs`,
`netlify/functions/*.mjs`), modelled shallowly over lists and strings.
JS strings handled by the chunking engine are modelled as `List Char`
(`Str`); external services (the OpenAI completion call, the Weaviate
index, `JSON.parse`) are modelled as explicit oracle parameters.
-/

namespace CoachingTool

/-- Character-list representation of the JS strings processed by the chunking engine. -/
abbrev Str := List Char

/-- Models `String.prototype.trim`: drop whitespace from both ends. -/
def trimStr (s : Str) : Str :=
  ((s.dropWhile Char.isWhitespace).reverse.dropWhile Char.isWhitespace).reverse

/-- Models `hay.indexOf(needle)` for JS strings: index of the first occurrence
of `needle`, `none` when there is no occurrence. -/
def indexOfSub? (hay needle : Str) : Option Nat :=
  match hay with
  | [] => if needle.isPrefixOf ([] : Str) then some 0 else none
  | c :: rest =>
    if needle.isPrefixOf (c :: rest) then some 0
    else (indexOfSub? rest needle).map (· + 1)

/-- Models `hay.lastIndexOf(needle)` for JS strings: index of the last
occurrence of `needle`, `none` when there is no occurrence. -/
def lastIndexOfSub? (hay needle : Str) : Option Nat :=
  match hay with
  | [] => if needle.isPrefixOf ([] : Str) then some 0 else none
  | c :: rest =>
    match lastIndexOfSub? rest needle with
    | some i => some (i + 1)
    | none => if needle.isPrefixOf (c :: rest) then some 0 else none

/-- `hay.lastIndexOf(needle)` with the JS convention `-1` for "not found". -/
def lastIndexOf (hay needle : Str) : Int :=
  match lastIndexOfSub? hay needle with
  | some i => (i : Int)
  | none => -1

-- ── lib/chunking.mjs ─────────────────────────────────────────

def MAX_CHUNK_CHARS : Nat := 2000

def OVERLAP_CHARS : Nat := 300

def SIMPLE_CHUNK_SIZE : Nat := 1500

def SIMPLE_OVERLAP : Nat := 300

/-- Models `text.split(/\n{2,}/)`: split at maximal runs of two or more
newlines. `cur` holds the current piece reversed; `nl` counts newlines seen
but not yet committed to either a piece or a separator. -/
def splitParasGo (cur : Str) (nl : Nat) : Str → List Str
  | [] =>
    if 2 ≤ nl then [cur.reverse, []]
    else [(List.replicate nl '\n' ++ cur).reverse]
  | c :: rest =>
    if c = '\n' then splitParasGo cur (nl + 1) rest
    else if 2 ≤ nl then cur.reverse :: splitParasGo [c] 0 rest
    else splitParasGo (c :: (List.replicate nl '\n' ++ cur)) 0 rest

/-- The paragraph split used by `splitAtParagraphs`. -/
def splitParas (text : Str) : List Str := splitParasGo [] 0 text

/-- `getOverlapTail`: the trailing ~`OVERLAP_CHARS` of `text`, preferring to
start at a sentence boundary (a `". "` found in the first half of the window),
else at a word boundary (first space), else the raw tail. -/
def getOverlapTail (text : Str) : Str :=
  if text.length ≤ OVERLAP_CHARS then text
  else
    let tail := text.drop (text.length - OVERLAP_CHARS)
    let wordBranch :=
      match indexOfSub? tail [' '] with
      | some wordStart => tail.drop (wordStart + 1)
      | none => tail
    match indexOfSub? tail ['.', ' '] with
    | some sentenceStart =>
      -- `sentenceStart < OVERLAP_CHARS * 0.5` in the JS; `OVERLAP_CHARS` is even
      if sentenceStart < OVERLAP_CHARS / 2 then tail.drop (sentenceStart + 2)
      else wordBranch
    | none => wordBranch

/-- The window-end computation shared by `charSplit` and `simpleChunk`
(the `end` variable of one loop iteration, including the sentence/newline
break-point adjustment). -/
def windowEnd (size : Nat) (text : Str) (start : Nat) : Nat :=
  let e0 := min (start + size) text.length
  if e0 < text.length then
    let slice := (text.drop start).take (e0 - start)
    let lastBreak := max (lastIndexOf slice ['.', ' ']) (lastIndexOf slice ['\n'])
    -- `lastBreak > size * 0.5` in the JS; `size` is even for both call sites
    if (size / 2 : Int) < lastBreak then start + lastBreak.toNat + 1 else e0
  else e0

/-- Fuel-indexed form of the `while` loop shared by `charSplit` and
`simpleChunk`; `none` marks fuel exhaustion (the termination theorem below
shows that `text.length + 1` fuel always suffices). -/
def windowSplitGo (size overlap : Nat) (text : Str) : Nat → Nat → Option (List Str)
  | 0, _ => none
  | fuel + 1, start =>
    if start < text.length then
      let e := windowEnd size text start
      let piece := trimStr ((text.drop start).take (e - start))
      if text.length ≤ e then some [piece]
      else
        match windowSplitGo size overlap text fuel (e - overlap) with
        | some rest => some (piece :: rest)
        | none => none
    else some []

/-- The `charSplit`/`simpleChunk` loop run to completion, with the JS
`filter(Boolean)` dropping empty pieces. -/
def windowSplit (size overlap : Nat) (text : Str) : List Str :=
  ((windowSplitGo size overlap text (text.length + 1) 0).getD []).filter
    (fun p => !p.isEmpty)

/-- `charSplit`: last-resort character-level split with overlap. -/
def charSplit (text : Str) : List Str := windowSplit MAX_CHUNK_CHARS OVERLAP_CHARS text

/-- `simpleChunk`: the simple character-boundary fallback splitter. -/
def simpleChunk (text : Str) : List Str := windowSplit SIMPLE_CHUNK_SIZE SIMPLE_OVERLAP text

/-- `splitAtParagraphs`: greedy paragraph accumulation with overlap seeding;
falls back to `charSplit` when the paragraph pass produced no chunks. -/
def splitAtParagraphs (text : Str) : List Str :=
  if text.length ≤ MAX_CHUNK_CHARS then [text]
  else
    let step := fun (st : List Str × Str) (para : Str) =>
      let candidate := if st.2 ≠ [] then st.2 ++ '\n' :: '\n' :: para else para
      if MAX_CHUNK_CHARS < candidate.length ∧ 0 < st.2.length then
        let overlap := getOverlapTail st.2
        (st.1 ++ [trimStr st.2], if overlap ≠ [] then overlap ++ '\n' :: '\n' :: para else para)
      else (st.1, candidate)
    let st := (splitParas text).foldl step ([], [])
    let chunks := if trimStr st.2 ≠ [] then st.1 ++ [trimStr st.2] else st.1
    if chunks = [] then charSplit text else chunks

/-- A parsed markdown section (element produced by `parseSections`). -/
structure DocSection where
  level : Nat
  title : Str
  content : Str
  lineIndex : Nat
deriving Repr, DecidableEq

/-- Match of `HEADING_RE = /^(#{1,4})\s+(.+)$/` against one line, returning
the heading level and the title as stored (`match[2].trim()`).  The regex
matches iff the line starts with one to four `#` followed by a whitespace
character and at least one further character; the stored trimmed title then
equals the trim of everything after the `#` run. -/
def matchHeading (line : Str) : Option (Nat × Str) :=
  let hashes := line.takeWhile (· = '#')
  let rest := line.dropWhile (· = '#')
  if 1 ≤ hashes.length ∧ hashes.length ≤ 4 ∧
      2 ≤ rest.length ∧ (rest.headD ' ').isWhitespace then
    some (hashes.length, trimStr rest)
  else none

/-- One flush of `currentSection` with its accumulated `contentLines`. -/
def flushSection (cur : Option DocSection) (contentLines : List Str) : List DocSection :=
  match cur with
  | some s => [{ s with content := trimStr (List.intercalate ['\n'] contentLines) }]
  | none => []

/-- The line-scanning loop of `parseSections` (`i` is the current line index). -/
def parseSectionsGo : List Str → Nat → Option DocSection → List Str → List DocSection
  | [], _, cur, contentLines => flushSection cur contentLines
  | line :: rest, i, cur, contentLines =>
    match matchHeading line with
    | some lt =>
      flushSection cur contentLines ++
        parseSectionsGo rest (i + 1) (some ⟨lt.1, lt.2, [], i⟩) []
    | none => parseSectionsGo rest (i + 1) cur (contentLines ++ [line])

/-- `parseSections`: parse structured markdown into sections; a document with
no headings at all becomes a single untitled level-1 section. -/
def parseSections (markdown : Str) : List DocSection :=
  let lines := markdown.splitOn '\n'
  let sections := parseSectionsGo lines 0 none []
  if sections = [] then [⟨1, [], trimStr markdown, 0⟩] else sections

/-- A section together with its breadcrumb path (`buildSectionPaths` output). -/
structure PathedSection where
  level : Nat
  title : Str
  content : Str
  lineIndex : Nat
  sectionPath : Str
deriving Repr, DecidableEq

/-- Heading-stack entry; the list is kept top-first (the JS array keeps the
top at the end, so JS array order is the reverse of this list). -/
structure PathEntry where
  level : Nat
  title : Str
deriving Repr, DecidableEq

/-- The stack-threading loop of `buildSectionPaths`: pop every stacked entry
of level ≥ the current section's level, push the section, and read the path
off the remaining stack (bottom to top). -/
def buildSectionPathsGo (stack : List PathEntry) : List DocSection → List PathedSection
  | [] => []
  | s :: rest =>
    let stack1 := stack.dropWhile (fun e => s.level ≤ e.level)
    let stack2 : List PathEntry := ⟨s.level, s.title⟩ :: stack1
    let path := List.intercalate " > ".toList (stack2.reverse.map PathEntry.title)
    ⟨s.level, s.title, s.content, s.lineIndex, path⟩ :: buildSectionPathsGo stack2 rest

/-- `buildSectionPaths`: annotate each section with its heading-hierarchy path. -/
def buildSectionPaths (sections : List DocSection) : List PathedSection :=
  buildSectionPathsGo [] sections

/-- `buildContextPrefix` in the source (suffix of the name shortened to `Pfx`):
contextual retrieval header built from document title and section path. -/
def buildContextPfx (title sectionPath : Str) : Str :=
  let parts := (if title ≠ [] then ["Document: ".toList ++ title] else []) ++
               (if sectionPath ≠ [] then ["Section: ".toList ++ sectionPath] else [])
  List.intercalate " | ".toList parts

/-- Pre-index chunk record as accumulated inside `chunkDocument`
(`contextPrefix` of the source is `contextPfx` here). -/
structure RawChunk where
  chapterTitle : Str
  sectionPath : Str
  contextPfx : Str
  content : Str
deriving Repr, DecidableEq

/-- Finalized chunk record returned by `chunkDocument`. -/
structure Chunk where
  objectId : Str
  sourceFile : Str
  title : Str
  chapterTitle : Str
  sectionPath : Str
  contextPfx : Str
  content : Str
  chunkIndex : Nat
deriving Repr, DecidableEq

/-- Decimal rendering of a number, as interpolated by JS template strings. -/
def natStr (n : Nat) : Str := (toString n).toList

/-- The per-section body of the structure-aware branch of `chunkDocument`:
rebuild the full content (heading line plus body), skip empty sections,
sub-split oversized ones. -/
def sectionRawChunks (title : Str) (sect : PathedSection) : List RawChunk :=
  let contextPfx := buildContextPfx title sect.sectionPath
  let headingLine :=
    if sect.title ≠ [] then List.replicate sect.level '#' ++ ' ' :: sect.title else []
  let fullContent :=
    if headingLine ≠ [] then headingLine ++ '\n' :: '\n' :: sect.content else sect.content
  if trimStr fullContent = [] then []
  else if MAX_CHUNK_CHARS < fullContent.length then
    (splitAtParagraphs fullContent).enum.map fun p =>
      ⟨(if sect.title ≠ [] then
          sect.title ++ " (part ".toList ++ natStr (p.1 + 1) ++ ")".toList
        else "Part ".toList ++ natStr (p.1 + 1)),
       sect.sectionPath, contextPfx, p.2⟩
  else [⟨sect.title, sect.sectionPath, contextPfx, fullContent⟩]

/-- `chunkDocument`: the main chunking entry point (structure-aware unless
`simple` is set), assigning sequential indices and per-document object ids. -/
def chunkDocument (text sourceFile title : Str) (simple : Bool) : List Chunk :=
  let rawChunks :=
    if simple then
      (simpleChunk text).map fun content =>
        ({ chapterTitle := [], sectionPath := [],
           contextPfx := buildContextPfx title [], content := content } : RawChunk)
    else
      ((buildSectionPaths (parseSections text)).map (sectionRawChunks title)).flatten
  rawChunks.enum.map fun p =>
    ⟨sourceFile ++ "::chunk-".toList ++ natStr p.1, sourceFile, title,
     p.2.chapterTitle, p.2.sectionPath, p.2.contextPfx, p.2.content, p.1⟩

-- ── JSON text (models the JSON.stringify output shapes used) ─

/-- Minimal JSON string escaping (quote, backslash and newline; the fixed
service strings serialized here use no other escapes). -/
def escapeJson (s : String) : String :=
  String.mk (s.toList.flatMap fun c =>
    if c = '"' then ['\\', '"']
    else if c = '\\' then ['\\', '\\']
    else if c = '\n' then ['\\', 'n']
    else [c])

/-- A JSON string literal. -/
def quoteJson (s : String) : String := "\"" ++ escapeJson s ++ "\""

/-- `JSON.stringify` of a one-field object with a string value. -/
def jsonObj1 (k v : String) : String :=
  "\x7b" ++ quoteJson k ++ ":" ++ quoteJson v ++ "\x7d"

-- ── lib/agent-runner.mjs ─────────────────────────────────────

/-- One tool call of an assistant message (`function.name` and
`function.arguments` flattened into the record). -/
structure ToolCall where
  id : String
  name : String
  args : String
deriving Repr, DecidableEq

/-- A chat message: `role`/`content` plus the tool-calling fields (an absent
`tool_calls` array is the empty list, an absent `tool_call_id` the empty
string). -/
structure Msg where
  role : String
  content : String
  tool_calls : List ToolCall
  tool_call_id : String
deriving Repr, DecidableEq

/-- The model's reply to one completion call (`response.choices[0]`). -/
structure ModelResponse where
  finish_reason : String
  message : Msg
deriving Repr, DecidableEq

/-- The tool-implementation table: `none` models an unknown tool name; an
implementation maps the raw `function.arguments` to the JSON-serialized
result, or to a thrown error's message (which also covers a failing
`JSON.parse` of the arguments). -/
abbrev ToolImpls := String → Option (String → Except String String)

/-- `executeToolCalls`: run every tool call of one assistant turn and return
the tool-result messages.  `Promise.all` over `toolCalls.map(...)` resolves
to the results in input-array order whatever the completion order, which a
`List.map` denotes; a failing tool call yields the structured error payload
instead of aborting the run. -/
def executeToolCalls (toolCalls : List ToolCall) (toolImpls : ToolImpls) : List Msg :=
  toolCalls.map fun toolCall =>
    match toolImpls toolCall.name with
    | none =>
      ⟨"tool", jsonObj1 "error" ("Unknown tool: " ++ toolCall.name), [], toolCall.id⟩
    | some fn =>
      match fn toolCall.args with
      | .ok result => ⟨"tool", result, [], toolCall.id⟩
      | .error e => ⟨"tool", jsonObj1 "error" e, [], toolCall.id⟩

/-- An OpenAI tool definition (only its presence matters to the control flow
modelled here). -/
structure ToolDef where
  name : String
deriving Repr, DecidableEq

/-- The completion-call oracle: the reply of the `i`-th call, given the
message history and the `tool_choice` value sent. -/
abbrev ModelOracle := Nat → List Msg → Option String → ModelResponse

/-- Arguments of one completion call issued by the loop: message history and
the `tools`/`tool_choice` request fields (`none` models `undefined`). -/
structure AgentCall where
  messages : List Msg
  tools : Option (List ToolDef)
  tool_choice : Option String
deriving Repr, DecidableEq

/-- The `tools` request field: `tools?.length ? tools : undefined`. -/
def toolsParam (tools : List ToolDef) : Option (List ToolDef) :=
  if tools.isEmpty then none else some tools

/-- The `tool_choice` request field of iteration `i` of `maxIterations`:
`tools?.length ? (isLast ? 'none' : 'auto') : undefined`. -/
def toolChoiceFor (tools : List ToolDef) (maxIterations i : Nat) : Option String :=
  if tools.isEmpty then none
  else some (if i = maxIterations - 1 then "none" else "auto")

/-- Result of a finished `runAgentLoop`: the trace of completion calls
issued, the returned content (`none` models the `return null` after the
loop exhausts), and the final message history. -/
structure LoopResult where
  calls : List AgentCall
  finalContent : Option String
  messages : List Msg
deriving Repr, DecidableEq

/-- The `for` loop of `runAgentLoop`; `fuel` is the number of remaining
iterations (`maxIterations - i`). -/
def runAgentLoopGo (respond : ModelOracle) (tools : List ToolDef) (toolImpls : ToolImpls)
    (maxIterations : Nat) : Nat → Nat → List Msg → LoopResult
  | 0, _, messages => ⟨[], none, messages⟩
  | fuel + 1, i, messages =>
    let tc := toolChoiceFor tools maxIterations i
    let response := respond i messages tc
    let call : AgentCall := ⟨messages, toolsParam tools, tc⟩
    if response.finish_reason = "stop" ∨ response.message.tool_calls = [] then
      ⟨[call], some response.message.content, messages⟩
    else
      let next := messages ++ response.message ::
        executeToolCalls response.message.tool_calls toolImpls
      let rest := runAgentLoopGo respond tools toolImpls maxIterations fuel (i + 1) next
      ⟨call :: rest.calls, rest.finalContent, rest.messages⟩

/-- `runAgentLoop` with an explicit initial message history (the
`[system, user]` seeding is done by the caller when no history is given). -/
def runAgentLoop (respond : ModelOracle) (tools : List ToolDef) (toolImpls : ToolImpls)
    (maxIterations : Nat) (messages : List Msg) : LoopResult :=
  runAgentLoopGo respond tools toolImpls maxIterations maxIterations 0 messages

-- ── lib/agent-tools.mjs ──────────────────────────────────────

/-- A raw Weaviate hit; every GraphQL field may be absent. -/
structure RawHit where
  content : Option String
  document_id : Option String
  doc_name : Option String
  source_label : Option String
  source_url : Option String
  content_type : Option String
  section_name : Option String
  chunk_index : Option Int
  total_chunks : Option Int
deriving Repr, DecidableEq

/-- A normalized Evidence Item (`formatHit` output; the JS `section` field
is `sectionLbl` here, `section` being a Lean keyword). -/
structure Hit where
  content : String
  docName : String
  sectionLbl : String
  contentType : String
  sourceLabel : String
  sourceUrl : String
  documentId : Option String
  chunkIndex : Option Int
  totalChunks : Option Int
deriving Repr, DecidableEq

/-- `field || default` for an optional string: JS `||` falls through on
`undefined`, `null` and the empty string. -/
def orDefault (o : Option String) (d : String) : String :=
  match o with
  | some s => if s = "" then d else s
  | none => d

/-- `r.document_id || null`: an empty string is falsy and becomes `null`. -/
def orNull (o : Option String) : Option String :=
  match o with
  | some s => if s = "" then none else some s
  | none => none

/-- `formatHit`: normalize one Weaviate hit to the Evidence Item shape
(`?? null` on the positional fields keeps any present value). -/
def formatHit (r : RawHit) : Hit where
  content := orDefault r.content ""
  docName := orDefault r.doc_name "Untitled"
  sectionLbl := orDefault r.section_name ""
  contentType := orDefault r.content_type ""
  sourceLabel := orDefault r.source_label ""
  sourceUrl := orDefault r.source_url ""
  documentId := orNull r.document_id
  chunkIndex := r.chunk_index
  totalChunks := r.total_chunks

/-- Result shape of the `search_knowledge_base` tool. -/
structure SearchResult where
  query : String
  resultCount : Nat
  results : List Hit
deriving Repr, DecidableEq

/-- Outcome of one Weaviate GraphQL query: a thrown error, or a response
from which `res?.data?.Get?.CoachingTool` extracts an optional hits array
(`?? []` supplies the default). -/
abbrev QueryOutcome := Except String (Option (List RawHit))

/-- `searchKnowledgeBase`: hybrid query with a `nearText` retry and an
empty result set on total failure; never throws.  The two query outcomes
are the oracle inputs for this call. -/
def searchKnowledgeBase (hybridOutcome nearTextOutcome : QueryOutcome)
    (query : String) : SearchResult :=
  match hybridOutcome with
  | .ok res =>
    let hits := res.getD []
    ⟨query, hits.length, hits.map formatHit⟩
  | .error _ =>
    match nearTextOutcome with
    | .ok res =>
      let hits := res.getD []
      ⟨query, hits.length, hits.map formatHit⟩
    | .error _ => ⟨query, 0, []⟩

/-- `contentTypeLabel`: the `CONTENT_TYPE_LABELS` lookup with the
`|| 'Other'` fallback (a falsy empty key also falls back). -/
def contentTypeLabel (ctype : String) : String :=
  if ctype = "case_study" then "Case study"
  else if ctype = "transcript" then "Transcript"
  else if ctype = "blog_post" then "Blog post"
  else if ctype = "journal_article" then "Journal article"
  else if ctype = "report" then "Report"
  else if ctype = "guide" then "Guide"
  else if ctype = "policy_brief" then "Policy brief"
  else if ctype = "lecture" then "Lecture"
  else if ctype = "tool_or_resource" then "Tool or resource"
  else "Other"

/-- Client-facing source-document record (the `buildSourceDocuments` map
output; the JS `contentTypeLabel` field is `contentTypeLbl` here to avoid
clashing with the function of the same name). -/
structure SourceDoc where
  title : String
  sourceFile : String
  sourceUrl : String
  contentType : Option String
  contentTypeLbl : Option String
  sectionPath : String
  chunkIndex : Option Int
  totalChunks : Option Int
  documentId : Option String
deriving Repr, DecidableEq

/-- The per-hit map of `buildSourceDocuments` (`|| ''` on the string fields
keeps empty strings empty). -/
def sourceDocOfHit (r : Hit) : SourceDoc where
  title := if r.sectionLbl ≠ "" then r.docName ++ " — " ++ r.sectionLbl else r.docName
  sourceFile := r.sourceLabel
  sourceUrl := r.sourceUrl
  contentType := if r.contentType = "" then none else some r.contentType
  contentTypeLbl := if r.contentType = "" then none else some (contentTypeLabel r.contentType)
  sectionPath := r.sectionLbl
  chunkIndex := r.chunkIndex
  totalChunks := r.totalChunks
  documentId := r.documentId

/-- The duplicate test of the `findIndex` predicate inside
`buildSourceDocuments`: `doc` is the element being filtered, `d` ranges
over the array. -/
def dedupMatch (doc d : SourceDoc) : Bool :=
  (doc.documentId.isSome && d.documentId == doc.documentId
      && d.chunkIndex == doc.chunkIndex) ||
  (doc.documentId.isNone && d.sourceFile == doc.sourceFile
      && d.sectionPath == doc.sectionPath)

/-- `buildSourceDocuments`: map hits to source-document records, then keep
an element iff the first array element matching it is itself
(`arr.findIndex(...) === i`). -/
def buildSourceDocuments (hits : List Hit) : List SourceDoc :=
  let docs := hits.map sourceDocOfHit
  (docs.enum.filter fun p =>
    docs.findIdx? (fun d => dedupMatch p.2 d) == some p.1).map Prod.snd

-- ── lib/sse.mjs and the streaming endpoints ──────────────────

/-- `formatSSEChunk`: one SSE content event. -/
def formatSSEChunk (content : String) : String :=
  "data: " ++ jsonObj1 "content" content ++ "\n\n"

/-- `JSON.stringify` of an optional string (JS `null` prints as `null`). -/
def stringifyOptStr (o : Option String) : String :=
  match o with
  | some s => quoteJson s
  | none => "null"

/-- `JSON.stringify` of an optional number. -/
def stringifyOptInt (o : Option Int) : String :=
  match o with
  | some i => toString i
  | none => "null"

/-- `JSON.stringify` of one source-document record (field order as in the
object literal of `sourceDocOfHit`). -/
def stringifySourceDoc (d : SourceDoc) : String :=
  "\x7b" ++ quoteJson "title" ++ ":" ++ quoteJson d.title ++
  "," ++ quoteJson "sourceFile" ++ ":" ++ quoteJson d.sourceFile ++
  "," ++ quoteJson "sourceUrl" ++ ":" ++ quoteJson d.sourceUrl ++
  "," ++ quoteJson "contentType" ++ ":" ++ stringifyOptStr d.contentType ++
  "," ++ quoteJson "contentTypeLabel" ++ ":" ++ stringifyOptStr d.contentTypeLbl ++
  "," ++ quoteJson "sectionPath" ++ ":" ++ quoteJson d.sectionPath ++
  "," ++ quoteJson "chunkIndex" ++ ":" ++ stringifyOptInt d.chunkIndex ++
  "," ++ quoteJson "totalChunks" ++ ":" ++ stringifyOptInt d.totalChunks ++
  "," ++ quoteJson "documentId" ++ ":" ++ stringifyOptStr d.documentId ++ "\x7d"

/-- `formatSSESources`: the one sources event. -/
def formatSSESources (sourceDocuments : List SourceDoc) : String :=
  "data: " ++ "\x7b" ++ quoteJson "sources" ++ ":[" ++
    String.intercalate "," (sourceDocuments.map stringifySourceDoc) ++
    "]\x7d" ++ "\n\n"

/-- `formatSSEDone`: the terminal marker line. -/
def formatSSEDone : String := "data: [DONE]\n\n"

/-- A Netlify function response (`contentType` is the `Content-Type` header
when one is set; `errorResponse` sends only the CORS headers). -/
structure NetlifyResponse where
  statusCode : Nat
  contentType : Option String
  body : String
deriving Repr, DecidableEq

/-- `errorResponse`: status plus JSON error body. -/
def errorResponse (statusCode : Nat) (message : String) : NetlifyResponse :=
  ⟨statusCode, none, jsonObj1 "error" message⟩

/-- `sseResponse`: 200 with the SSE headers. -/
def sseResponse (body : String) : NetlifyResponse :=
  ⟨200, some "text/event-stream", body⟩

/-- Result of `resolveAgentToolCalls` as consumed by the endpoints. -/
structure ResolvedRun where
  messages : List Msg
  earlyContent : Option String
deriving Repr, DecidableEq

/-- `collectSourcesFromMessages`: gather the evidence arrays of every
tool-role message; `parseHits` models `JSON.parse` plus the
`data.results`/`data.chunks` extraction (`[]` for non-JSON content). -/
def collectSourcesFromMessages (parseHits : String → List Hit)
    (messages : List Msg) : List Hit :=
  messages.foldl (fun sources msg =>
    if msg.role = "tool" then sources ++ parseHits msg.content else sources) []

/-- The request-shape facts `generate-plan.mjs` checks before running. -/
structure PlanRequest where
  httpMethod : String
  bodyParses : Bool
  hasUserContext : Bool
deriving Repr, DecidableEq

/-- CORS preflight reply (`handleCors`). -/
def corsPreflight : NetlifyResponse := ⟨204, none, ""⟩

/-- The `generate-plan` Netlify handler.  The outcome of
`resolveAgentToolCalls` (which issues the upstream completion calls and can
throw) and of `streamFinalResponse` are oracle inputs; a thrown error is
caught and becomes `errorResponse 500 ...`.  An empty `earlyContent` is
falsy in `if (earlyContent)` and also falls through to the streaming call. -/
def generatePlanHandler (resolveOutcome : Except String ResolvedRun)
    (streamOutcome : Except String String) (parseHits : String → List Hit)
    (req : PlanRequest) : NetlifyResponse :=
  if req.httpMethod = "OPTIONS" then corsPreflight
  else if req.httpMethod ≠ "POST" then errorResponse 405 "Method Not Allowed"
  else if !req.bodyParses then errorResponse 400 "Invalid JSON in request body."
  else if !req.hasUserContext then
    errorResponse 400 "Missing required field: userContext."
  else
    match resolveOutcome with
    | .error _ =>
      errorResponse 500 "An error occurred while generating the engagement plan."
    | .ok run =>
      let firstPart : Except String String :=
        match run.earlyContent with
        | some c => if c = "" then streamOutcome else .ok (formatSSEChunk c)
        | none => streamOutcome
      match firstPart with
      | .error _ =>
        errorResponse 500 "An error occurred while generating the engagement plan."
      | .ok sseBody =>
        let allSources := collectSourcesFromMessages parseHits run.messages
        let withSources :=
          if 0 < allSources.length then
            sseBody ++ formatSSESources (buildSourceDocuments allSources)
          else sseBody
        sseResponse (withSources ++ formatSSEDone)

/-- Express response state: whether the SSE headers were flushed, the
chunks written so far, whether the response was ended, and any
`res.status(...).json(...)` reply sent instead of a stream. -/
structure ExpressRes where
  headersSent : Bool
  writes : List String
  ended : Bool
  jsonReply : Option (Nat × String)
deriving Repr, DecidableEq

/-- The response object before the route runs. -/
def freshRes : ExpressRes := ⟨false, [], false, none⟩

/-- `res.write(s)`. -/
def writeRes (r : ExpressRes) (s : String) : ExpressRes :=
  { r with writes := r.writes ++ [s] }

/-- `res.end()`. -/
def endRes (r : ExpressRes) : ExpressRes := { r with ended := true }

/-- The final streaming completion call inside `resolveAndStream`: on
success the delta contents are written as SSE chunks (empty deltas
skipped); on failure the thrown error propagates. -/
def streamFromOracle (streamOutcome : Except String (List String))
    (res : ExpressRes) : ExpressRes × Option String :=
  match streamOutcome with
  | .error e => (res, some e)
  | .ok deltas =>
    (deltas.foldl (fun r d => if d ≠ "" then writeRes r (formatSSEChunk d) else r) res,
     none)

/-- `resolveAndStream` in `server.mjs`: flush the SSE headers, resolve the
agent loop, write or stream the answer, then append sources and the
terminal marker.  Returns the response state plus the error thrown by a
failing step (`initSSE` has flushed the headers before the first
suspension point, so `headersSent` is true from then on). -/
def resolveAndStream (resolveOutcome : Except String ResolvedRun)
    (streamOutcome : Except String (List String)) (parseHits : String → List Hit)
    (res : ExpressRes) : ExpressRes × Option String :=
  let res := { res with headersSent := true }
  match resolveOutcome with
  | .error e => (res, some e)
  | .ok run =>
    let streamed : ExpressRes × Option String :=
      match run.earlyContent with
      | some c =>
        if c = "" then streamFromOracle streamOutcome res
        else (writeRes res (formatSSEChunk c), none)
      | none => streamFromOracle streamOutcome res
    match streamed with
    | (res1, some e) => (res1, some e)
    | (res1, none) =>
      let allSources := collectSourcesFromMessages parseHits run.messages
      let res2 :=
        if 0 < allSources.length then
          writeRes res1 (formatSSESources (buildSourceDocuments allSources))
        else res1
      (endRes (writeRes res2 formatSSEDone), none)

/-- The `POST /api/chatbot` Express route: request validation, then
`resolveAndStream` inside try/catch; a thrown error after the headers were
flushed just ends the response, otherwise a 500 JSON reply is sent. -/
def chatbotRoute (resolveOutcome : Except String ResolvedRun)
    (streamOutcome : Except String (List String)) (parseHits : String → List Hit)
    (message : Option String) : ExpressRes :=
  if message = none ∨ message = some "" then
    { freshRes with
        jsonReply := some (400, jsonObj1 "error" "Missing \"message\" in request body.") }
  else
    match resolveAndStream resolveOutcome streamOutcome parseHits freshRes with
    | (res, none) => res
    | (res, some _) =>
      if res.headersSent then endRes res
      else
        { res with
            jsonReply := some (500,
              jsonObj1 "error" "An error occurred processing your message.") }

-- ── the generate-questions endpoint ──────────────────────────

/-- JSON values, for the parsed agent output of the questions endpoint. -/
inductive Json where
  | null : Json
  | bool : Bool → Json
  | num : Int → Json
  | str : String → Json
  | arr : List Json → Json
  | obj : List (String × Json) → Json

/-- Remove every occurrence of `pattern` from a character list, scanning
left to right and continuing after each removal. -/
def removeAllSub (pattern : Str) : Str → Str
  | [] => []
  | c :: rest =>
    if h : pattern ≠ [] ∧ pattern.isPrefixOf (c :: rest) then
      removeAllSub pattern (List.drop pattern.length (c :: rest))
    else c :: removeAllSub pattern rest
termination_by s => s.length
decreasing_by
  · have hp : 0 < pattern.length := List.length_pos.mpr h.1
    simp only [List.length_drop, List.length_cons]
    omega
  · simp

/-- The fence stripping of the questions endpoint,
`result.replace(/```json\n?/g, '').replace(/```\n?/g, '').trim()`:
each regex is modelled as removal of the with-newline variant followed by
the bare variant. -/
def cleanAgentOutput (text : String) : String :=
  String.mk (trimStr (removeAllSub "```".toList (removeAllSub "```\n".toList
    (removeAllSub "```json".toList (removeAllSub "```json\n".toList text.toList)))))

/-- The safe default reply `{needsFollowUp: false, questions: []}`. -/
def safeDefault : Json :=
  .obj [("needsFollowUp", .bool false), ("questions", .arr [])]

/-- Object field lookup (JS property access on the parsed value). -/
def jsonLookup (fields : List (String × Json)) (key : String) : Option Json :=
  (fields.find? (fun f => f.1 == key)).map Prod.snd

/-- Property assignment `obj[key] = v`: replace in place or append. -/
def setField : List (String × Json) → String → Json → List (String × Json)
  | [], key, v => [(key, v)]
  | f :: rest, key, v =>
    if f.1 = key then (key, v) :: rest else f :: setField rest key v

/-- `if (!Array.isArray(parsed.questions)) parsed.questions = [];` on an
object value. -/
def coerceQuestions (fields : List (String × Json)) : Json :=
  match jsonLookup fields "questions" with
  | some (.arr _) => .obj fields
  | _ => .obj (setField fields "questions" (.arr []))

/-- The reply computation of the `generate-questions` endpoint, given the
agent loop's returned text (`none` models the `null` of an exhausted loop)
and `parse` modelling `JSON.parse` of the cleaned text.  A `null` result
makes `.replace` throw, and a `null`/primitive parse makes the array check
or the strict-mode property assignment throw; each lands in the outer
catch, which replies with the safe default.  An array parse keeps its
elements: the assignment of the extra property succeeds on an array object
and `res.json` then drops it. -/
def handleQuestionsResult (parse : String → Option Json)
    (result : Option String) : Json :=
  match result with
  | none => safeDefault
  | some text =>
    let parsed :=
      match parse (cleanAgentOutput text) with
      | some j => j
      | none => safeDefault
    match parsed with
    | .obj fields => coerceQuestions fields
    | .arr xs => .arr xs
    | _ => safeDefault

/-- The `questions` property of the endpoint reply. -/
def questionsOf (j : Json) : Option Json :=
  match j with
  | .obj fields => jsonLookup fields "questions"
  | _ => none

-- ══ Agent loop: shared lemmas ════════════════════════════════

/-- The loop never issues more completion calls than it has iterations left. -/
theorem runAgentLoopGo_length_le (respond : ModelOracle) (tools : List ToolDef)
    (toolImpls : ToolImpls) (N : Nat) :
    ∀ fuel i messages,
      (runAgentLoopGo respond tools toolImpls N fuel i messages).calls.length ≤ fuel := by
  intro fuel
  induction fuel with
  | zero => intro i messages; simp [runAgentLoopGo]
  | succ f ih =>
    intro i messages
    simp only [runAgentLoopGo]
    split
    · simp
    · simpa using Nat.succ_le_succ (ih _ _)

/-- Under a model that keeps requesting tool calls, the loop uses every
iteration: the trace has exactly `fuel` completion calls. -/
theorem runAgentLoopGo_length_always (respond : ModelOracle) (tools : List ToolDef)
    (toolImpls : ToolImpls) (N : Nat)
    (halways : ∀ i msgs tc, (respond i msgs tc).finish_reason ≠ "stop" ∧
      (respond i msgs tc).message.tool_calls ≠ []) :
    ∀ fuel i messages,
      (runAgentLoopGo respond tools toolImpls N fuel i messages).calls.length = fuel := by
  intro fuel
  induction fuel with
  | zero => intro i messages; simp [runAgentLoopGo]
  | succ f ih =>
    intro i messages
    have hcond : ¬((respond i messages (toolChoiceFor tools N i)).finish_reason = "stop" ∨
        (respond i messages (toolChoiceFor tools N i)).message.tool_calls = []) := by
      rcases halways i messages (toolChoiceFor tools N i) with ⟨h1, h2⟩
      tauto
    simp [runAgentLoopGo, hcond, ih]

/-- Under a model that keeps requesting tool calls, the last completion call
of the trace is round `i + fuel - 1` and carries its `tools`/`tool_choice`. -/
theorem runAgentLoopGo_last_always (respond : ModelOracle) (tools : List ToolDef)
    (toolImpls : ToolImpls) (N : Nat)
    (halways : ∀ i msgs tc, (respond i msgs tc).finish_reason ≠ "stop" ∧
      (respond i msgs tc).message.tool_calls ≠ []) :
    ∀ fuel i messages, 1 ≤ fuel →
      ∃ c, (runAgentLoopGo respond tools toolImpls N fuel i messages).calls.getLast? = some c ∧
        c.tools = toolsParam tools ∧ c.tool_choice = toolChoiceFor tools N (i + fuel - 1) := by
  intro fuel
  induction fuel with
  | zero => intro i messages h; omega
  | succ f ih =>
    intro i messages _
    have hcond : ¬((respond i messages (toolChoiceFor tools N i)).finish_reason = "stop" ∨
        (respond i messages (toolChoiceFor tools N i)).message.tool_calls = []) := by
      rcases halways i messages (toolChoiceFor tools N i) with ⟨h1, h2⟩
      tauto
    by_cases hf : f = 0
    · subst hf
      refine ⟨⟨messages, toolsParam tools, toolChoiceFor tools N i⟩, ?_, rfl, rfl⟩
      simp [runAgentLoopGo, hcond]
    · obtain ⟨c, hlast, htools, hchoice⟩ :=
        ih (i + 1)
          (messages ++ (respond i messages (toolChoiceFor tools N i)).message ::
            executeToolCalls (respond i messages (toolChoiceFor tools N i)).message.tool_calls
              toolImpls)
          (Nat.one_le_iff_ne_zero.mpr hf)
      refine ⟨c, ?_, htools, ?_⟩
      · have hlen := runAgentLoopGo_length_always respond tools toolImpls N halways f (i + 1)
          (messages ++ (respond i messages (toolChoiceFor tools N i)).message ::
            executeToolCalls (respond i messages (toolChoiceFor tools N i)).message.tool_calls
              toolImpls)
        simp only [runAgentLoopGo, hcond, if_neg hcond]
        rcases hrest : (runAgentLoopGo respond tools toolImpls N f (i + 1)
            (messages ++ (respond i messages (toolChoiceFor tools N i)).message ::
              executeToolCalls (respond i messages (toolChoiceFor tools N i)).message.tool_calls
                toolImpls)).calls with _ | ⟨c0, rest⟩
        · rw [hrest] at hlen; simp at hlen; omega
        · rw [hrest] at hlast
          simpa [List.getLast?_cons_cons] using hlast
      · rw [hchoice]
        congr 1
        omega

/-- The tool-result identifiers come out in exactly the order of the tool
calls that produced them (shared between the pairing and ordering claims). -/
theorem executeToolCalls_ids (toolCalls : List ToolCall) (toolImpls : ToolImpls) :
    (executeToolCalls toolCalls toolImpls).map Msg.tool_call_id =
      toolCalls.map ToolCall.id := by
  induction toolCalls with
  | nil => rfl
  | cons tc rest ih =>
    have hstep : executeToolCalls (tc :: rest) toolImpls =
        (match toolImpls tc.name with
          | none =>
            (⟨"tool", jsonObj1 "error" ("Unknown tool: " ++ tc.name), [], tc.id⟩ : Msg)
          | some fn =>
            match fn tc.args with
            | .ok result => ⟨"tool", result, [], tc.id⟩
            | .error e => ⟨"tool", jsonObj1 "error" e, [], tc.id⟩) ::
          executeToolCalls rest toolImpls := rfl
    rw [hstep, List.map_cons, List.map_cons, ih]
    congr 1
    cases h : toolImpls tc.name with
    | none => rfl
    | some fn =>
      cases h2 : fn tc.args with
      | ok r => simp [h2]
      | error e => simp [h2]

-- ══ Claim theorems ═══════════════════════════════════════════

/-- Claim C1: for every tool-definition set and every maximum iteration count
N ≥ 1, a `runAgentLoop` run whose model keeps requesting tool calls
terminates after at most N completion calls — exactly N here — and the Nth
(final) call is issued with tool use disabled (`tool_choice` is `'none'`, or
no tools were sent at all when the tool set is empty). -/
theorem runAgentLoop_terminates_with_forced_final_call (respond : ModelOracle)
    (tools : List ToolDef) (toolImpls : ToolImpls) (N : Nat) (init : List Msg)
    (hN : 1 ≤ N)
    (halways : ∀ i msgs tc, (respond i msgs tc).finish_reason ≠ "stop" ∧
      (respond i msgs tc).message.tool_calls ≠ []) :
    (∀ (respond' : ModelOracle) (init' : List Msg),
      (runAgentLoop respond' tools toolImpls N init').calls.length ≤ N) ∧
    (runAgentLoop respond tools toolImpls N init).calls.length = N ∧
    ∃ c, (runAgentLoop respond tools toolImpls N init).calls.getLast? = some c ∧
      (c.tool_choice = some "none" ∨ c.tools = none) := by
  refine ⟨fun respond' init' => runAgentLoopGo_length_le respond' tools toolImpls N N 0 init',
    runAgentLoopGo_length_always respond tools toolImpls N halways N 0 init, ?_⟩
  obtain ⟨c, hlast, htools, hchoice⟩ :=
    runAgentLoopGo_last_always respond tools toolImpls N halways N 0 init hN
  refine ⟨c, hlast, ?_⟩
  by_cases ht : tools.isEmpty
  · right
    rw [htools]
    simp [toolsParam, ht]
  · left
    rw [hchoice]
    simp [toolChoiceFor, ht]

/-- Witness for C1: a concrete two-iteration run against a model oracle that
requests the tool call `t1` on every round. -/
theorem runAgentLoop_terminates_with_forced_final_call_witness :
    1 ≤ 2 ∧
    ((∀ (respond' : ModelOracle) (init' : List Msg),
      (runAgentLoop respond' [⟨"search_knowledge_base"⟩] (fun _ => none) 2 init').calls.length ≤ 2) ∧
    (runAgentLoop
        (fun _ _ _ => ⟨"tool_calls", ⟨"assistant", "", [⟨"t1", "search_knowledge_base", "\x7b\x7d"⟩], ""⟩⟩)
        [⟨"search_knowledge_base"⟩] (fun _ => none) 2 []).calls.length = 2 ∧
    ∃ c, (runAgentLoop
        (fun _ _ _ => ⟨"tool_calls", ⟨"assistant", "", [⟨"t1", "search_knowledge_base", "\x7b\x7d"⟩], ""⟩⟩)
        [⟨"search_knowledge_base"⟩] (fun _ => none) 2 []).calls.getLast? = some c ∧
      (c.tool_choice = some "none" ∨ c.tools = none)) :=
  ⟨by decide,
    runAgentLoop_terminates_with_forced_final_call
      (fun _ _ _ => ⟨"tool_calls", ⟨"assistant", "", [⟨"t1", "search_knowledge_base", "\x7b\x7d"⟩], ""⟩⟩)
      [⟨"search_knowledge_base"⟩] (fun _ => none) 2 [] (by decide)
      (fun _ _ _ =>
        ⟨(by decide : ("tool_calls" : String) ≠ "stop"),
         (by decide : ([⟨"t1", "search_knowledge_base", "\x7b\x7d"⟩] : List ToolCall) ≠ [])⟩)⟩

/-- Claim C4: for an assistant turn issuing tool calls with identifiers
`[t1, ..., tk]`, `executeToolCalls` produces exactly `k` tool-role messages
whose `tool_call_id` values are exactly the identifiers of the tool calls,
and the loop appends them immediately after the assistant message, before
the next completion call receives the history. -/
theorem executeToolCalls_pairs_results (toolCalls : List ToolCall) (toolImpls : ToolImpls) :
    (executeToolCalls toolCalls toolImpls).length = toolCalls.length ∧
    (∀ m ∈ executeToolCalls toolCalls toolImpls, m.role = "tool") ∧
    (∀ t, t ∈ (executeToolCalls toolCalls toolImpls).map Msg.tool_call_id ↔
      t ∈ toolCalls.map ToolCall.id) ∧
    (∀ (respond : ModelOracle) (tools : List ToolDef) (N fuel i : Nat) (messages : List Msg),
      ¬((respond i messages (toolChoiceFor tools N i)).finish_reason = "stop" ∨
        (respond i messages (toolChoiceFor tools N i)).message.tool_calls = []) →
      (runAgentLoopGo respond tools toolImpls N (fuel + 1) i messages).calls =
        ⟨messages, toolsParam tools, toolChoiceFor tools N i⟩ ::
          (runAgentLoopGo respond tools toolImpls N fuel (i + 1)
            (messages ++ (respond i messages (toolChoiceFor tools N i)).message ::
              executeToolCalls
                (respond i messages (toolChoiceFor tools N i)).message.tool_calls
                toolImpls)).calls) := by
  refine ⟨by simp [executeToolCalls], ?_, ?_, ?_⟩
  · intro m hm
    simp only [executeToolCalls, List.mem_map] at hm
    obtain ⟨tc, _, hEq⟩ := hm
    rw [← hEq]
    cases h : toolImpls tc.name with
    | none => rfl
    | some fn =>
      cases h2 : fn tc.args with
      | ok r => simp [h2]
      | error e => simp [h2]
  · intro t
    rw [executeToolCalls_ids]
  · intro respond tools N fuel i messages hcond
    simp [runAgentLoopGo, hcond]

/-- Witness for C4: the one-round trace shape at a concrete run, with the
always-tool-calling hypothesis discharged at the concrete oracle. -/
theorem executeToolCalls_pairs_results_witness :
    ¬((((fun (_ : Nat) (_ : List Msg) (_ : Option String) =>
          (⟨"tool_calls", ⟨"assistant", "", [⟨"t1", "f", "x"⟩], ""⟩⟩ : ModelResponse)) :
        ModelOracle) 0 [] (toolChoiceFor [] 1 0)).finish_reason = "stop" ∨
      (((fun (_ : Nat) (_ : List Msg) (_ : Option String) =>
          (⟨"tool_calls", ⟨"assistant", "", [⟨"t1", "f", "x"⟩], ""⟩⟩ : ModelResponse)) :
        ModelOracle) 0 [] (toolChoiceFor [] 1 0)).message.tool_calls = []) ∧
    (runAgentLoopGo
        (fun _ _ _ => ⟨"tool_calls", ⟨"assistant", "", [⟨"t1", "f", "x"⟩], ""⟩⟩)
        [] (fun _ => none) 1 (0 + 1) 0 []).calls =
      ⟨[], toolsParam [], toolChoiceFor [] 1 0⟩ ::
        (runAgentLoopGo
          (fun _ _ _ => ⟨"tool_calls", ⟨"assistant", "", [⟨"t1", "f", "x"⟩], ""⟩⟩)
          [] (fun _ => none) 1 0 (0 + 1)
          ([] ++ (⟨"assistant", "", [⟨"t1", "f", "x"⟩], ""⟩ : Msg) ::
            executeToolCalls [⟨"t1", "f", "x"⟩] (fun _ => none))).calls :=
  ⟨by decide,
    (executeToolCalls_pairs_results [⟨"t1", "f", "x"⟩] (fun _ => none)).2.2.2
      (fun _ _ _ => ⟨"tool_calls", ⟨"assistant", "", [⟨"t1", "f", "x"⟩], ""⟩⟩)
      [] 1 0 0 [] (by decide)⟩

/-- Claim C9: the tool-result messages appear in exactly the same order as
the tool calls of the assistant turn — `Promise.all` resolves in input-array
order, denoted by the `List.map` of `executeToolCalls` — not merely in some
order preserving the identifier-to-result mapping. -/
theorem executeToolCalls_preserves_order (toolCalls : List ToolCall) (toolImpls : ToolImpls) :
    (executeToolCalls toolCalls toolImpls).map Msg.tool_call_id =
      toolCalls.map ToolCall.id :=
  executeToolCalls_ids toolCalls toolImpls

/-- Claim C7: `searchKnowledgeBase` never raises: it echoes the query, its
`resultCount` matches its result list, a failing hybrid query falls back to
the `nearText` query, and when both fail it returns the empty result set
`{query, resultCount: 0, results: []}` instead of propagating the error. -/
theorem searchKnowledgeBase_never_raises (hybridOutcome nearTextOutcome : QueryOutcome)
    (query : String) :
    (searchKnowledgeBase hybridOutcome nearTextOutcome query).query = query ∧
    (searchKnowledgeBase hybridOutcome nearTextOutcome query).resultCount =
      (searchKnowledgeBase hybridOutcome nearTextOutcome query).results.length ∧
    (∀ e e', hybridOutcome = .error e → nearTextOutcome = .error e' →
      searchKnowledgeBase hybridOutcome nearTextOutcome query = ⟨query, 0, []⟩) ∧
    (∀ e res, hybridOutcome = .error e → nearTextOutcome = .ok res →
      searchKnowledgeBase hybridOutcome nearTextOutcome query =
        ⟨query, (res.getD []).length, (res.getD []).map formatHit⟩) := by
  rcases hybridOutcome with e | res <;> rcases nearTextOutcome with e' | res' <;>
    simp [searchKnowledgeBase]

/-- Witness for C7: both queries fail, the tool returns the empty result set. -/
theorem searchKnowledgeBase_never_raises_witness :
    ((Except.error "index down" : QueryOutcome) = .error "index down") ∧
    searchKnowledgeBase (.error "index down") (.error "index down") "q" =
      ⟨"q", 0, []⟩ :=
  ⟨rfl, (searchKnowledgeBase_never_raises (.error "index down") (.error "index down") "q").2.2.1
    "index down" "index down" rfl rfl⟩

/-- Claim C5: `buildSourceDocuments` deduplicates evidence items — an item is
a duplicate of an earlier one when both share document id and chunk index
(when the item's document id is present), else when both share source label
and section path; the first occurrence wins and order is otherwise preserved
(the output is a sublist of the mapped input).  On the claimed five-item
input (two copies of doc 1 chunk 0, doc 1 chunk 1, two items with no doc id
but source "X" and path "P") the output is exactly the three first
occurrences. -/
theorem buildSourceDocuments_dedup :
    (∀ hits : List Hit, (buildSourceDocuments hits).Sublist (hits.map sourceDocOfHit)) ∧
    buildSourceDocuments
        [⟨"", "", "", "", "", "", some "1", some 0, none⟩,
         ⟨"", "", "", "", "", "", some "1", some 0, none⟩,
         ⟨"", "", "", "", "", "", some "1", some 1, none⟩,
         ⟨"", "", "P", "", "X", "", none, none, none⟩,
         ⟨"", "", "P", "", "X", "", none, none, none⟩] =
      [sourceDocOfHit ⟨"", "", "", "", "", "", some "1", some 0, none⟩,
       sourceDocOfHit ⟨"", "", "", "", "", "", some "1", some 1, none⟩,
       sourceDocOfHit ⟨"", "", "P", "", "X", "", none, none, none⟩] ∧
    (buildSourceDocuments
        [⟨"", "", "", "", "", "", some "1", some 0, none⟩,
         ⟨"", "", "", "", "", "", some "1", some 0, none⟩,
         ⟨"", "", "", "", "", "", some "1", some 1, none⟩,
         ⟨"", "", "P", "", "X", "", none, none, none⟩,
         ⟨"", "", "P", "", "X", "", none, none, none⟩]).length = 3 := by
  refine ⟨?_, by decide, by decide⟩
  intro hits
  simp only [buildSourceDocuments]
  have h := (List.filter_sublist (p := fun p =>
      (hits.map sourceDocOfHit).findIdx? (fun d => dedupMatch p.2 d) == some p.1)
    ((hits.map sourceDocOfHit).enum)).map Prod.snd
  rw [List.enum_map_snd] at h
  exact h

/-- Each section contributes exactly one pathed section. -/
theorem buildSectionPathsGo_length (stack : List PathEntry) (sections : List DocSection) :
    (buildSectionPathsGo stack sections).length = sections.length := by
  induction sections generalizing stack with
  | nil => rfl
  | cons s rest ih => simp [buildSectionPathsGo, ih]

/-- Claim C6: `buildSectionPaths` computes each section's hierarchical path
with a level-aware stack that pops every stacked entry whose level is ≥ the
current section's level before pushing it; for the heading sequence
H1 "A", H2 "B", H2 "C", H1 "D" the computed paths are exactly
"A", "A > B", "A > C", "D". -/
theorem buildSectionPaths_level_stack :
    (∀ sections : List DocSection,
      (buildSectionPaths sections).length = sections.length) ∧
    (buildSectionPaths
        [⟨1, "A".toList, [], 0⟩, ⟨2, "B".toList, [], 1⟩,
         ⟨2, "C".toList, [], 2⟩, ⟨1, "D".toList, [], 3⟩]).map PathedSection.sectionPath =
      ["A".toList, "A > B".toList, "A > C".toList, "D".toList] :=
  ⟨fun sections => buildSectionPathsGo_length [] sections, by decide⟩

/-- Field lookup after `setField` finds the assigned value. -/
theorem jsonLookup_setField (fields : List (String × Json)) (key : String) (v : Json) :
    jsonLookup (setField fields key v) key = some v := by
  induction fields with
  | nil => simp [setField, jsonLookup]
  | cons f rest ih =>
    by_cases h : f.1 = key
    · simp [setField, h, jsonLookup]
    · have hb : (f.1 == key) = false := by simp [h]
      simp only [setField, if_neg h, jsonLookup, List.find?_cons, hb]
      simpa [jsonLookup] using ih

/-- Claim C8: when the follow-up agent's output fails to parse as JSON (or
the run produced no text), the generate-questions endpoint replies with the
safe default `{needsFollowUp: false, questions: []}`; when the output parses
as an object, a non-array `questions` field is coerced to `[]`, so the reply
always carries an array of questions — the malformed output is never
surfaced as an error to the caller. -/
theorem generateQuestions_safe_default (parse : String → Option Json) :
    (∀ result : Option String,
      (result = none ∨ ∃ t, result = some t ∧ parse (cleanAgentOutput t) = none) →
      handleQuestionsResult parse result = safeDefault) ∧
    (∀ t fields, parse (cleanAgentOutput t) = some (.obj fields) →
      ∃ xs, questionsOf (handleQuestionsResult parse (some t)) = some (.arr xs) ∧
        ((∀ ys, jsonLookup fields "questions" ≠ some (.arr ys)) → xs = [])) := by
  constructor
  · rintro result (rfl | ⟨t, rfl, hparse⟩)
    · rfl
    · simp only [handleQuestionsResult, hparse]
      rfl
  · intro t fields hparse
    simp only [handleQuestionsResult, hparse]
    by_cases harr : ∃ xs, jsonLookup fields "questions" = some (.arr xs)
    · obtain ⟨xs, hq⟩ := harr
      refine ⟨xs, ?_, fun hcon => absurd hq (hcon xs)⟩
      simp [coerceQuestions, hq, questionsOf]
    · have hcoerce : coerceQuestions fields =
          .obj (setField fields "questions" (Json.arr [])) := by
        rcases hq : jsonLookup fields "questions" with _ | j
        · simp [coerceQuestions, hq]
        · cases j with
          | arr ys => exact absurd ⟨ys, hq⟩ harr
          | null => simp [coerceQuestions, hq]
          | bool b => simp [coerceQuestions, hq]
          | num n => simp [coerceQuestions, hq]
          | str s => simp [coerceQuestions, hq]
          | obj fs => simp [coerceQuestions, hq]
      refine ⟨[], ?_, fun _ => rfl⟩
      rw [hcoerce]
      simp [questionsOf, jsonLookup_setField]

/-- Witness for C8: unparseable output yields the safe default reply. -/
theorem generateQuestions_safe_default_witness :
    ((some "not json" : Option String) = none ∨
      ∃ t, (some "not json" : Option String) = some t ∧
        (fun (_ : String) => (none : Option Json)) (cleanAgentOutput t) = none) ∧
    handleQuestionsResult (fun _ => none) (some "not json") = safeDefault :=
  ⟨Or.inr ⟨"not json", rfl, rfl⟩,
    (generateQuestions_safe_default (fun _ => none)).1 (some "not json")
      (Or.inr ⟨"not json", rfl, rfl⟩)⟩

/-- Claim C3 counterexample: with the upstream model call failing, the
generate-plan streaming endpoint does not return an event stream at all —
it replies 500 with a JSON error body, without any apologetic content
fragment and without the `data: [DONE]` terminal marker. -/
theorem generatePlan_model_failure_not_a_stream :
    (generatePlanHandler (.error "model down") (.error "model down") (fun _ => [])
        ⟨"POST", true, true⟩).statusCode = 500 ∧
    (generatePlanHandler (.error "model down") (.error "model down") (fun _ => [])
        ⟨"POST", true, true⟩).contentType ≠ some "text/event-stream" ∧
    indexOfSub?
        (generatePlanHandler (.error "model down") (.error "model down") (fun _ => [])
          ⟨"POST", true, true⟩).body.toList "data: [DONE]".toList = none :=
  ⟨rfl, by decide, by decide⟩

/-- Claim C3 amended: when the upstream model completion call fails, the
Netlify generate-plan handler replies with a 500 JSON error instead of a
stream, and the Express chatbot route — whose SSE headers were already
flushed — ends the response without writing any event: no apologetic
content fragment and no terminal marker is emitted on failure. -/
theorem model_failure_surfaced_as_hard_error
    (resolveOutcome : Except String ResolvedRun) (streamOutcome : Except String String)
    (streamDeltas : Except String (List String)) (parseHits : String → List Hit)
    (message e : String) (hres : resolveOutcome = .error e) (hmsg : message ≠ "") :
    generatePlanHandler resolveOutcome streamOutcome parseHits ⟨"POST", true, true⟩ =
      errorResponse 500 "An error occurred while generating the engagement plan." ∧
    (chatbotRoute resolveOutcome streamDeltas parseHits (some message)).ended = true ∧
    (chatbotRoute resolveOutcome streamDeltas parseHits (some message)).writes = [] ∧
    (chatbotRoute resolveOutcome streamDeltas parseHits (some message)).jsonReply = none := by
  subst hres
  refine ⟨by simp [generatePlanHandler], ?_, ?_, ?_⟩ <;>
    simp [chatbotRoute, resolveAndStream, freshRes, endRes, hmsg]

/-- Witness for the amended C3 at concrete failing outcomes. -/
theorem model_failure_surfaced_as_hard_error_witness :
    ((Except.error "model down" : Except String ResolvedRun) = .error "model down") ∧
    ("hi" : String) ≠ "" ∧
    generatePlanHandler (.error "model down") (.error "model down") (fun _ => [])
        ⟨"POST", true, true⟩ =
      errorResponse 500 "An error occurred while generating the engagement plan." ∧
    (chatbotRoute (.error "model down") (.error "model down") (fun _ => [])
        (some "hi")).ended = true :=
  ⟨rfl, by decide,
    (model_failure_surfaced_as_hard_error (.error "model down") (.error "model down")
      (.error "model down") (fun _ => []) "hi" "model down" rfl (by decide)).1,
    (model_failure_surfaced_as_hard_error (.error "model down") (.error "model down")
      (.error "model down") (fun _ => []) "hi" "model down" rfl (by decide)).2.1⟩

-- ══ Window splitter termination (C10) ════════════════════════

/-- A needle that starts with a character other than `'a'` never occurs in a
replicated `'a'` string. -/
theorem lastIndexOfSub?_replicate_a (n : Nat) (hd : Char) (tl : Str) (hne : hd ≠ 'a') :
    lastIndexOfSub? (List.replicate n 'a') (hd :: tl) = none := by
  induction n with
  | zero => simp [lastIndexOfSub?, List.isPrefixOf]
  | succ m ih =>
    rw [List.replicate_succ]
    simp only [lastIndexOfSub?, ih]
    simp [List.isPrefixOf, hne]

/-- `lastIndexOf` form of the previous lemma, with the JS `-1`. -/
theorem lastIndexOf_replicate_a (n : Nat) (hd : Char) (tl : Str) (hne : hd ≠ 'a') :
    lastIndexOf (List.replicate n 'a') (hd :: tl) = -1 := by
  rw [lastIndexOf, lastIndexOfSub?_replicate_a n hd tl hne]

/-- On an all-`'a'` text no break-point adjustment fires, so the window end
is just `min (start + size) length`. -/
theorem windowEnd_replicate_a (size n start : Nat) :
    windowEnd size (List.replicate n 'a') start = min (start + size) n := by
  simp only [windowEnd, List.length_replicate]
  by_cases h0 : min (start + size) n < n
  · rw [if_pos h0, List.drop_replicate, List.take_replicate,
      lastIndexOf_replicate_a _ '.' [' '] (by decide),
      lastIndexOf_replicate_a _ '\n' [] (by decide)]
    rw [if_neg]
    omega
  · rw [if_neg h0]

/-- In any iteration that does not reach the end of the text, the window end
is at least `start + size/2 + 1`. -/
theorem windowEnd_lower_bound (size : Nat) (text : Str) (start : Nat) (hsz : 1 ≤ size)
    (h : windowEnd size text start < text.length) :
    start + size / 2 + 1 ≤ windowEnd size text start := by
  simp only [windowEnd] at h ⊢
  by_cases h0 : min (start + size) text.length < text.length
  · simp only [if_pos h0] at h ⊢
    by_cases h1 : ((size / 2 : Int) <
        max (lastIndexOf ((text.drop start).take (min (start + size) text.length - start))
              ['.', ' '])
            (lastIndexOf ((text.drop start).take (min (start + size) text.length - start))
              ['\n']))
    · simp only [if_pos h1] at h ⊢
      omega
    · simp only [if_neg h1] at h ⊢
      omega
  · simp only [if_neg h0] at h
    omega

/-- Fuel `text.length - start` (plus one) always suffices for the window
splitter loop: the next start position strictly increases every round. -/
theorem windowSplitGo_total (size overlap : Nat) (hsz : 1 ≤ size)
    (hov : overlap ≤ size / 2) (text : Str) :
    ∀ fuel start, start ≤ text.length → text.length < start + fuel →
      (windowSplitGo size overlap text fuel start).isSome := by
  intro fuel
  induction fuel with
  | zero => intro start h1 h2; omega
  | succ f ih =>
    intro start h1 h2
    simp only [windowSplitGo]
    by_cases hs : start < text.length
    · simp only [if_pos hs]
      by_cases he : text.length ≤ windowEnd size text start
      · simp only [if_pos he]
        simp
      · simp only [if_neg he]
        have hlt : windowEnd size text start < text.length := by omega
        have hbound := windowEnd_lower_bound size text start hsz hlt
        have hrec := ih (windowEnd size text start - overlap) (by omega) (by omega)
        rcases hres : windowSplitGo size overlap text f (windowEnd size text start - overlap)
          with _ | r
        · rw [hres] at hrec
          simp at hrec
        · simp [hres]
    · simp [if_neg hs]

/-- Claim C10: the character-window splitters `charSplit` and `simpleChunk`
terminate for every input string: fuel `text.length + 1` always completes
the loop, and on every iteration that does not reach the end of the text the
window end is at least `start + size/2 + 1`, so the next start position
(`end - overlap`) strictly increases by more than `size/2 - overlap`
(700 characters for `charSplit`, 450 for `simpleChunk`), and the loop breaks
once the window reaches the end of the text. -/
theorem charSplit_simpleChunk_terminate :
    (∀ text : Str,
      (windowSplitGo MAX_CHUNK_CHARS OVERLAP_CHARS text (text.length + 1) 0).isSome) ∧
    (∀ text : Str,
      (windowSplitGo SIMPLE_CHUNK_SIZE SIMPLE_OVERLAP text (text.length + 1) 0).isSome) ∧
    (∀ (text : Str) (start : Nat), windowEnd MAX_CHUNK_CHARS text start < text.length →
      start + MAX_CHUNK_CHARS / 2 + 1 ≤ windowEnd MAX_CHUNK_CHARS text start ∧
      start + (MAX_CHUNK_CHARS / 2 - OVERLAP_CHARS) <
        windowEnd MAX_CHUNK_CHARS text start - OVERLAP_CHARS) ∧
    (∀ (text : Str) (start : Nat), windowEnd SIMPLE_CHUNK_SIZE text start < text.length →
      start + SIMPLE_CHUNK_SIZE / 2 + 1 ≤ windowEnd SIMPLE_CHUNK_SIZE text start ∧
      start + (SIMPLE_CHUNK_SIZE / 2 - SIMPLE_OVERLAP) <
        windowEnd SIMPLE_CHUNK_SIZE text start - SIMPLE_OVERLAP) := by
  refine ⟨fun text => windowSplitGo_total MAX_CHUNK_CHARS OVERLAP_CHARS (by decide) (by decide)
      text (text.length + 1) 0 (Nat.zero_le _) (by omega),
    fun text => windowSplitGo_total SIMPLE_CHUNK_SIZE SIMPLE_OVERLAP (by decide) (by decide)
      text (text.length + 1) 0 (Nat.zero_le _) (by omega), ?_, ?_⟩
  · intro text start h
    have hb := windowEnd_lower_bound MAX_CHUNK_CHARS text start (by decide) h
    refine ⟨hb, ?_⟩
    have : (MAX_CHUNK_CHARS : Nat) = 2000 := rfl
    have : (OVERLAP_CHARS : Nat) = 300 := rfl
    omega
  · intro text start h
    have hb := windowEnd_lower_bound SIMPLE_CHUNK_SIZE text start (by decide) h
    refine ⟨hb, ?_⟩
    have : (SIMPLE_CHUNK_SIZE : Nat) = 1500 := rfl
    have : (SIMPLE_OVERLAP : Nat) = 300 := rfl
    omega

/-- Witness for C10: the step bound at an all-`'a'` text of 2500 characters,
where the first window ends at character 2000. -/
theorem charSplit_simpleChunk_terminate_witness :
    windowEnd MAX_CHUNK_CHARS (List.replicate 2500 'a') 0 <
      (List.replicate 2500 'a').length ∧
    (0 + MAX_CHUNK_CHARS / 2 + 1 ≤ windowEnd MAX_CHUNK_CHARS (List.replicate 2500 'a') 0 ∧
      0 + (MAX_CHUNK_CHARS / 2 - OVERLAP_CHARS) <
        windowEnd MAX_CHUNK_CHARS (List.replicate 2500 'a') 0 - OVERLAP_CHARS) := by
  have hend : windowEnd MAX_CHUNK_CHARS (List.replicate 2500 'a') 0 = 2000 := by
    rw [windowEnd_replicate_a]
    decide
  have hlt : windowEnd MAX_CHUNK_CHARS (List.replicate 2500 'a') 0 <
      (List.replicate 2500 'a').length := by
    rw [hend, List.length_replicate]
    decide
  exact ⟨hlt, charSplit_simpleChunk_terminate.2.2.1 (List.replicate 2500 'a') 0 hlt⟩

-- ══ Chunking of a single giant paragraph (C2) ════════════════

/-- Trimming a replicated non-whitespace character changes nothing. -/
theorem trimStr_replicate_a (n : Nat) :
    trimStr (List.replicate n 'a') = List.replicate n 'a' := by
  have hws : ('a'.isWhitespace) = false := by decide
  simp [trimStr, List.dropWhile_replicate, List.reverse_replicate, hws]

/-- An all-`'a'` line is not a heading. -/
theorem matchHeading_replicate_a (n : Nat) :
    matchHeading (List.replicate n 'a') = none := by
  simp [matchHeading, List.takeWhile_replicate]

/-- Parsing an all-`'a'` document yields the single no-heading fallback
section. -/
theorem parseSections_replicate_a (n : Nat) :
    parseSections (List.replicate n 'a') = [⟨1, [], List.replicate n 'a', 0⟩] := by
  have hsplit : (List.replicate n 'a').splitOn '\n' = [List.replicate n 'a'] := by
    refine List.splitOnP_eq_single _ _ ?_
    intro x hx
    rw [List.eq_of_mem_replicate hx]
    decide
  simp [parseSections, hsplit, parseSectionsGo, matchHeading_replicate_a, flushSection,
    trimStr_replicate_a]

/-- The paragraph-splitting scan of a newline-free text returns one piece. -/
theorem splitParasGo_no_newline :
    ∀ l : Str, (∀ c ∈ l, c ≠ '\n') → ∀ cur, splitParasGo cur 0 l = [cur.reverse ++ l] := by
  intro l
  induction l with
  | nil => intro _ cur; simp [splitParasGo]
  | cons c rest ih =>
    intro hnl cur
    have hc : ¬(c = '\n') := hnl c (List.mem_cons_self c rest)
    simp only [splitParasGo, if_neg hc]
    rw [if_neg (by omega : ¬(2 ≤ 0))]
    rw [List.replicate_zero, List.nil_append]
    rw [ih (fun x hx => hnl x (List.mem_cons_of_mem c hx)) (c :: cur)]
    simp

/-- A giant single paragraph splits into itself. -/
theorem splitParas_replicate_a (n : Nat) :
    splitParas (List.replicate n 'a') = [List.replicate n 'a'] := by
  have h := splitParasGo_no_newline (List.replicate n 'a')
    (fun c hc => by rw [List.eq_of_mem_replicate hc]; decide) []
  simpa [splitParas] using h

/-- `splitAtParagraphs` leaves a single giant paragraph whole: the paragraph
pass yields exactly one oversized chunk, so the zero-chunks `charSplit`
fallback never fires. -/
theorem splitAtParagraphs_replicate_a (n : Nat) (hn : MAX_CHUNK_CHARS < n) :
    splitAtParagraphs (List.replicate n 'a') = [List.replicate n 'a'] := by
  have hne : List.replicate n 'a' ≠ [] := by
    rw [← List.length_pos, List.length_replicate]
    have h2000 : (MAX_CHUNK_CHARS : Nat) = 2000 := rfl
    omega
  simp only [splitAtParagraphs, List.length_replicate]
  rw [if_neg (by omega)]
  rw [splitParas_replicate_a]
  simp only [List.foldl_cons, List.foldl_nil]
  simp [trimStr_replicate_a, hne]

/-- `buildSectionPaths` of the single fallback section. -/
theorem buildSectionPaths_single (content : Str) :
    buildSectionPaths [⟨1, [], content, 0⟩] = [⟨1, [], content, 0, []⟩] := rfl

/-- The structure-aware branch turns the giant-paragraph section into a
single oversized raw chunk labelled "Part 1". -/
theorem sectionRawChunks_replicate_a (title : Str) (n : Nat) (hn : MAX_CHUNK_CHARS < n) :
    sectionRawChunks title ⟨1, [], List.replicate n 'a', 0, []⟩ =
      [⟨"Part 1".toList, [], buildContextPfx title [], List.replicate n 'a'⟩] := by
  have hne : trimStr (List.replicate n 'a') ≠ [] := by
    rw [trimStr_replicate_a, ← List.length_pos, List.length_replicate]
    have h2000 : (MAX_CHUNK_CHARS : Nat) = 2000 := rfl
    omega
  have hlen : MAX_CHUNK_CHARS < (List.replicate n 'a').length := by
    rw [List.length_replicate]; exact hn
  have hne2 : List.replicate n 'a' ≠ [] := by simpa [trimStr_replicate_a] using hne
  have hone : natStr 1 = ['1'] := by decide
  simp [sectionRawChunks, trimStr_replicate_a, hne2, hlen, hn,
    splitAtParagraphs_replicate_a n hn, List.enum, hone]

/-- Claim C2 (code bug): in structure-aware mode a section consisting of one
paragraph longer than `MAX_CHUNK_CHARS` (no blank lines) is emitted as a
single chunk of its full length — the paragraph pass produces one oversized
chunk rather than zero, so the character-window fallback promised for the
single-giant-paragraph case never runs and the emitted chunk exceeds the
2000-character bound by arbitrarily much. -/
theorem chunkDocument_emits_oversized_single_paragraph (n : Nat)
    (hn : MAX_CHUNK_CHARS < n) (sourceFile title : Str) :
    (chunkDocument (List.replicate n 'a') sourceFile title false).map
        (fun c => c.content) = [List.replicate n 'a'] ∧
    (chunkDocument (List.replicate n 'a') sourceFile title false).map
        (fun c => c.content.length) = [n] := by
  constructor <;>
    simp [chunkDocument, parseSections_replicate_a, buildSectionPaths_single,
      sectionRawChunks_replicate_a title n hn, List.enum]

/-- Witness for C2: the concrete 2501-character single-paragraph document
comes out as one 2501-character chunk, 501 characters over the bound. -/
theorem chunkDocument_emits_oversized_single_paragraph_witness :
    MAX_CHUNK_CHARS < 2501 ∧
    ((chunkDocument (List.replicate 2501 'a') "doc.md".toList "Doc".toList false).map
        (fun c => c.content) = [List.replicate 2501 'a'] ∧
      (chunkDocument (List.replicate 2501 'a') "doc.md".toList "Doc".toList false).map
        (fun c => c.content.length) = [2501]) :=
  ⟨by decide,
    chunkDocument_emits_oversized_single_paragraph 2501 (by decide) "doc.md".toList "Doc".toList⟩

end CoachingTool
